import Mathlib

/-!
Shallow embedding of the financial-data extraction pipeline of `scrape.py`
(Investing-AI-Agent).

Tables are modelled label-first: a raw provider statement (`StmtTable`) has
string row labels (line items) and period column labels, while a normalised
slice (`NormSlice`) stores its header and data rows explicitly, the way the
script materialises them after `reset_index`.  Numeric cells are opaque
scalars (`Option Int`); `none` is the absence marker (NaN).
-/

/-- Numeric value of a decimal digit character; `none` on a non-digit.
Models how a component of an ISO date string is read back by
`pandas.to_datetime`. -/
def charVal (c : Char) : Option Nat :=
  if 48 ≤ c.toNat ∧ c.toNat ≤ 57 then some (c.toNat - 48) else none

/-- A calendar date, as produced by `pandas.Timestamp.date()`. -/
structure CalDate where
  year : Nat
  month : Nat
  day : Nat
deriving DecidableEq

/-- A provider period timestamp: a calendar date plus a time-of-day part
(the part `date()` truncates away). -/
structure PdTimestamp where
  date : CalDate
  hour : Nat
  minute : Nat
  second : Nat
deriving DecidableEq

/-- Calendar dates representable by the provider (pandas keeps years with
four decimal digits and calendar-valid month/day fields). -/
def CalDate.Valid (d : CalDate) : Prop :=
  d.year < 10000 ∧ 1 ≤ d.month ∧ d.month ≤ 12 ∧ 1 ≤ d.day ∧ d.day ≤ 31

instance (d : CalDate) : Decidable d.Valid := by
  unfold CalDate.Valid
  infer_instance

/-- `date.isoformat()`: the fixed-width `YYYY-MM-DD` rendering. -/
def CalDate.isoformat (d : CalDate) : String :=
  String.mk
    [Nat.digitChar (d.year / 1000 % 10), Nat.digitChar (d.year / 100 % 10),
     Nat.digitChar (d.year / 10 % 10), Nat.digitChar (d.year % 10), '-',
     Nat.digitChar (d.month / 10 % 10), Nat.digitChar (d.month % 10), '-',
     Nat.digitChar (d.day / 10 % 10), Nat.digitChar (d.day % 10)]

/-- `pandas.to_datetime` restricted to ISO `YYYY-MM-DD` calendar-date
strings: ten characters, two dashes, digits elsewhere, month and day in
calendar range; `none` models the parse error raised otherwise. -/
def parseIsoDate (s : String) : Option CalDate :=
  match s.data with
  | [c1, c2, c3, c4, d1, c5, c6, d2, c7, c8] =>
    if d1 = '-' ∧ d2 = '-' then do
      let v1 ← charVal c1
      let v2 ← charVal c2
      let v3 ← charVal c3
      let v4 ← charVal c4
      let v5 ← charVal c5
      let v6 ← charVal c6
      let v7 ← charVal c7
      let v8 ← charVal c8
      let y := 1000 * v1 + 100 * v2 + 10 * v3 + v4
      let m := 10 * v5 + v6
      let dd := 10 * v7 + v8
      if 1 ≤ m ∧ m ≤ 12 ∧ 1 ≤ dd ∧ dd ≤ 31 then some ⟨y, m, dd⟩ else none
    else none
  | _ => none

/-- A column label of a raw provider table: either a plain string (such as
the literals `"Metrics"` and `"TTM"`) or a period timestamp. -/
inductive ColLabel where
  | str (s : String)
  | ts (t : PdTimestamp)
deriving DecidableEq

/-- `pandas.to_datetime` on a column label: a timestamp is returned as is, a
string is parsed as an ISO date (midnight time part). -/
def to_datetime (l : ColLabel) : Option PdTimestamp :=
  match l with
  | .ts t => some t
  | .str s => (parseIsoDate s).map (fun d => ⟨d, 0, 0, 0⟩)

/-- The column-rename comprehension body of `get_std_values`:
`col if col in ("Metrics", "TTM") else pd.to_datetime(col).date().isoformat()`. -/
def stdColLabel (l : ColLabel) : Option String :=
  match l with
  | .str s =>
    if s = "Metrics" ∨ s = "TTM" then some s
    else (to_datetime (ColLabel.str s)).map (fun t => t.date.isoformat)
  | .ts t => some t.date.isoformat

/-- A raw provider statement table: row labels (line-item names), period
column labels, and a cell function (`none` = NaN). -/
structure StmtTable where
  index : List String
  cols : List ColLabel
  cell : String → ColLabel → Option Int

/-- `df.empty`: a pandas frame is empty when either axis has length zero. -/
def StmtTable.isEmptyTable (df : StmtTable) : Bool :=
  df.index.isEmpty || df.cols.isEmpty

/-- A normalised slice as materialised after `reset_index`: string column
headers (the first being `"Metrics"`), and one row per retained line item
holding its label and its cells in column order. -/
structure NormSlice where
  cols : List String
  rows : List (String × List (Option Int))
deriving DecidableEq

/-- Sequence a fallible renaming over a list: `some` of all results when
every element converts, `none` (the propagated exception) otherwise. -/
def allSome {α β : Type} (f : α → Option β) : List α → Option (List β)
  | [] => some []
  | a :: as => do
    let b ← f a
    let bs ← allSome f as
    pure (b :: bs)

/-- `get_std_values(df, metrics)`: keep the rows whose label lies in the
metric list (in the order of the table's own index, as
`df.index.intersection(metrics)` does), promote the row labels to a
`"Metrics"` column, and rename every column through `stdColLabel`; `none`
models the parse error `pd.to_datetime` raises on an unconvertible label. -/
def get_std_values (df : StmtTable) (metrics : List String) : Option NormSlice := do
  let available := df.index.filter (fun r => decide (r ∈ metrics))
  let converted ← allSome stdColLabel df.cols
  pure { cols := "Metrics" :: converted,
         rows := available.map (fun r => (r, df.cols.map (fun c => df.cell r c))) }

/-- The metric catalog for the income statement (`financial_metrics`). -/
def financial_metrics : List String :=
  ["Total Revenue", "Cost Of Revenue", "EBIT", "Net Income",
   "Research And Development"]

/-- The metric catalog for the balance sheet (`balance_metrics`). -/
def balance_metrics : List String :=
  ["Total Assets", "Current Assets", "Inventory",
   "Total Liabilities Net Minority Interest", "Current Liabilities",
   "Long Term Debt", "Total Debt", "Stockholders Equity"]

/-- The metric catalog for the cash-flow statement (`cashflow_metrics`). -/
def cashflow_metrics : List String :=
  ["Cash Flow From Continuing Operating Activities", "Capital Expenditure"]

/-- The metric catalog for the market snapshot (`market_metrics`). -/
def market_metrics : List String :=
  ["currentPrice", "sharesOutstanding", "forwardEps", "enterpriseValue"]

/-- Lexicographic comparison of two character sequences by code point. -/
def lexLeChars : List Char → List Char → Bool
  | [], _ => true
  | _ :: _, [] => false
  | a :: as, b :: bs =>
    if a.toNat < b.toNat then true
    else if b.toNat < a.toNat then false
    else lexLeChars as bs

/-- Lexicographic string comparison, the order `pandas` sorts merge keys
in. -/
def strLe (a b : String) : Bool := lexLeChars a.data b.data

/-- Insert a string into an already ascending list. -/
def insertAsc (a : String) : List String → List String
  | [] => [a]
  | b :: bs => if strLe a b then a :: b :: bs else b :: insertAsc a bs

/-- Sort a list of strings lexicographically ascending. -/
def sortAsc (l : List String) : List String :=
  l.foldr insertAsc []

/-- Cells of the row keyed `k` in a slice (the key column is the row label
field), for the key alignment of a unique-key merge. -/
def findRow (s : NormSlice) (k : String) : Option (List (Option Int)) :=
  (s.rows.find? (fun r => decide (r.1 = k))).map Prod.snd

/-- `pd.merge(left, right, on="Metrics", how="outer")` for frames whose key
column is the row label and whose keys are unique on each side: the output
key set is the union of both sides' keys sorted lexicographically (as
documented for `how="outer"`), the columns are the left columns followed by
the right non-key columns in order, and a key missing from one side gets
that side's cells filled with the absence marker. -/
def mergeOuterOnMetrics (left right : NormSlice) : NormSlice :=
  { cols := left.cols ++ right.cols.filter (fun c => decide (c ≠ "Metrics")),
    rows := (sortAsc ((left.rows.map Prod.fst ++ right.rows.map Prod.fst).dedup)).map
      (fun k =>
        (k, ((findRow left k).getD (List.replicate (left.cols.length - 1) none)) ++
            ((findRow right k).getD (List.replicate (right.cols.length - 1) none)))) }

/-- What the provider (`yfinance.Ticker`) serves for one ticker: the five
statement tables and the scalar `info` dictionary (an association list;
`info.get` returns `None` for a missing key). -/
structure TickerData where
  financials : StmtTable
  ttm_financials : StmtTable
  balance_sheet : StmtTable
  cashflow : StmtTable
  ttm_cashflow : StmtTable
  info : List (String × Int)

/-- The TTM slice built inside `extract_financial`/`extract_cashflow`: the
metrics of the catalog found in the TTM table's index, in catalog order,
each with its value in the TTM table's first column, materialised with
columns `Metrics`, `TTM` (`DataFrame.from_dict(..., columns=["TTM"])`
creates the `TTM` column even from an empty dictionary). -/
def ttmSlice (df_ttm : StmtTable) (metrics : List String) (latest_col : ColLabel) : NormSlice :=
  { cols := ["Metrics", "TTM"],
    rows := (metrics.filter (fun m => decide (m ∈ df_ttm.index))).map
      (fun m => (m, [df_ttm.cell m latest_col])) }

/-- `extract_financial`: validate both tables non-empty (`ValueError`
otherwise, modelled as `none`), build the TTM slice from the TTM table's
first column, slice the periodic table, and outer-merge on `"Metrics"`. -/
def extract_financial (t : TickerData) : Option NormSlice :=
  if t.financials.isEmptyTable then none
  else if t.ttm_financials.isEmptyTable then none
  else do
    let latest_col ← t.ttm_financials.cols.head?
    let df_std ← get_std_values t.financials financial_metrics
    pure (mergeOuterOnMetrics (ttmSlice t.ttm_financials financial_metrics latest_col) df_std)

/-- `extract_balance`: validate the balance sheet non-empty and slice it
(no TTM variant exists for the balance sheet). -/
def extract_balance (t : TickerData) : Option NormSlice :=
  if t.balance_sheet.isEmptyTable then none
  else get_std_values t.balance_sheet balance_metrics

/-- `extract_cashflow`: same shape as `extract_financial`, against the
cash-flow tables and catalog. -/
def extract_cashflow (t : TickerData) : Option NormSlice :=
  if t.cashflow.isEmptyTable then none
  else if t.ttm_cashflow.isEmptyTable then none
  else do
    let latest_col ← t.ttm_cashflow.cols.head?
    let df_std ← get_std_values t.cashflow cashflow_metrics
    pure (mergeOuterOnMetrics (ttmSlice t.ttm_cashflow cashflow_metrics latest_col) df_std)

/-- `info.get(key, None)` on the provider's info dictionary. -/
def infoGet (info : List (String × Int)) (k : String) : Option Int :=
  (info.find? (fun p => decide (p.1 = k))).map Prod.snd

/-- `extract_market`: raise (`none`) when the info dictionary is empty,
otherwise materialise the fixed four market fields as a
(`Metrics`, `Value`) table, a missing field giving the absence marker. -/
def extract_market (info : List (String × Int)) : Option NormSlice :=
  if info.isEmpty then none
  else some { cols := ["Metrics", "Value"],
              rows := market_metrics.map (fun m => (m, [infoGet info m])) }

/-! ### The `__main__` orchestrator -/

/-- The dataset directory: an association list from file path to written
table, most recent write first. -/
abbrev FileSys := List (String × NormSlice)

/-- Content of the file at a path, `none` when the path does not exist. -/
def fsRead (fs : FileSys) (p : String) : Option NormSlice :=
  (fs.find? (fun e => decide (e.1 = p))).map Prod.snd

/-- `Path.exists()`. -/
def fsHasPath (fs : FileSys) (p : String) : Bool :=
  (fsRead fs p).isSome

/-- Observable actions of a run: a ticker-validation info lookup
(`is_valid_ticker`), a data-extraction provider call for one statement
category, or a file write. -/
inductive RunEvent where
  | validationCall (ticker : String)
  | extractCall (ticker : String) (category : String)
  | fileWrite (path : String)
deriving DecidableEq

/-- The four per-ticker output file paths, in the order the script checks
and writes them. -/
def filePaths (stock : String) : List String :=
  ["dataset/" ++ stock ++ "_financials.csv",
   "dataset/" ++ stock ++ "_balance_sheet.csv",
   "dataset/" ++ stock ++ "_cashflow.csv",
   "dataset/" ++ stock ++ "_market.csv"]

/-- The provider behaviour backing one run: the validation verdict per
ticker (the `regularMarketPrice` check of `is_valid_ticker`, with a
provider error counted as invalid) and the four extraction results per
ticker on the happy path. -/
structure Provider where
  valid : String → Bool
  finTable : String → NormSlice
  balTable : String → NormSlice
  cfTable : String → NormSlice
  mktTable : String → NormSlice

/-- One `if not files[k].exists(): df.to_csv(files[k], index=False)` step:
write only when the path does not yet exist. -/
def writeMissing (fs : FileSys) (p : String) (v : NormSlice) : FileSys × List RunEvent :=
  if fsHasPath fs p then (fs, []) else ((p, v) :: fs, [RunEvent.fileWrite p])

/-- The per-ticker body of the main loop: skip entirely when all four files
exist; otherwise run all four extractors (four provider calls) and then
write each of the four files that is still missing. -/
def processTicker (pr : Provider) (fs : FileSys) (stock : String) : FileSys × List RunEvent :=
  if (filePaths stock).all (fun p => fsHasPath fs p) then (fs, [])
  else
    let fetch := [RunEvent.extractCall stock "financials",
                  RunEvent.extractCall stock "balance_sheet",
                  RunEvent.extractCall stock "cashflow",
                  RunEvent.extractCall stock "market"]
    let s1 := writeMissing fs ("dataset/" ++ stock ++ "_financials.csv") (pr.finTable stock)
    let s2 := writeMissing s1.1 ("dataset/" ++ stock ++ "_balance_sheet.csv") (pr.balTable stock)
    let s3 := writeMissing s2.1 ("dataset/" ++ stock ++ "_cashflow.csv") (pr.cfTable stock)
    let s4 := writeMissing s3.1 ("dataset/" ++ stock ++ "_market.csv") (pr.mktTable stock)
    (s4.1, fetch ++ s1.2 ++ s2.2 ++ s3.2 ++ s4.2)

/-- The processing loop over the validated tickers, threading the dataset
directory and collecting events. -/
def processAll (pr : Provider) : FileSys → List String → FileSys × List RunEvent
  | fs, [] => (fs, [])
  | fs, t :: ts =>
    let s := processTicker pr fs t
    let r := processAll pr s.1 ts
    (r.1, s.2 ++ r.2)

/-- The ticker-entry loop: validate each entered ticker in order (one
provider info lookup each); the first invalid one terminates the program
(`sys.exit(1)`), reported as a `false` flag. -/
def validatePhase (pr : Provider) : List String → List RunEvent × Bool
  | [] => ([], true)
  | t :: ts =>
    if pr.valid t then
      let r := validatePhase pr ts
      (RunEvent.validationCall t :: r.1, r.2)
    else ([RunEvent.validationCall t], false)

/-- The `__main__` driver after the count prompt: validate all entered
tickers first, aborting the whole run at the first invalid one before any
processing, then run the per-ticker processing loop.  Returns the final
dataset directory, the event trace, and whether the run completed. -/
def runMain (pr : Provider) (fs : FileSys) (tickers : List String) : FileSys × List RunEvent × Bool :=
  if (validatePhase pr tickers).2 then
    ((processAll pr fs tickers).1,
     (validatePhase pr tickers).1 ++ (processAll pr fs tickers).2, true)
  else (fs, (validatePhase pr tickers).1, false)

/-! ### The structurer (`structure data.py` section) -/

/-- One melted Long Record row:
(Year, Company Ticker, Company Name, Source, Metrics, Value). -/
structure LongRec where
  year : String
  ticker : String
  companyName : String
  source : String
  metric : String
  value : Option Int
deriving DecidableEq

/-- The full group key `pivot_table` groups by: the three index levels plus
the two column levels. -/
structure PivotKey where
  year : String
  ticker : String
  companyName : String
  source : String
  metric : String
deriving DecidableEq

/-- The group key of a record. -/
def LongRec.pivotKey (r : LongRec) : PivotKey :=
  ⟨r.year, r.ticker, r.companyName, r.source, r.metric⟩

/-- The (Year, Ticker, Company Name) index triple of a record. -/
def LongRec.triple (r : LongRec) : String × String × String :=
  (r.year, r.ticker, r.companyName)

/-- The index triple of a group key. -/
def PivotKey.triple (k : PivotKey) : String × String × String :=
  (k.year, k.ticker, k.companyName)

/-- `aggfunc="first"` on one group: the first non-absent value among the
group's records, absent when there is none (`GroupBy.first` skips NaN). -/
def firstAgg (combined : List LongRec) (k : PivotKey) : Option Int :=
  ((combined.filter (fun r => decide (r.pivotKey = k))).filterMap (fun r => r.value)).head?

/-- The aggregated frame of `pivot_table` before unstacking: one entry per
distinct group key, in first-appearance order (`pivot_table` additionally
sorts the index, which changes neither membership nor count). -/
def aggRows (combined : List LongRec) : List (PivotKey × Option Int) :=
  ((combined.map LongRec.pivotKey).dedup).map (fun k => (k, firstAgg combined k))

/-- The row index of `structured_df`: `pivot_table` with its default
`dropna=True` drops the all-NaN aggregated rows (`dropna(how="all")` on the
single `Value` column) before unstacking (Source, Metrics) into columns,
leaving one row per surviving (Year, Ticker, Company Name) triple. -/
def structuredTriples (combined : List LongRec) : List (String × String × String) :=
  (((aggRows combined).filter (fun kv => kv.2.isSome)).map (fun kv => kv.1.triple)).dedup

/-- Row count of `structured_df` built from the three melted record sets,
concatenated in script order (balance, cashflow, financials). -/
def structured_row_count (bal cf fin : List LongRec) : Nat :=
  (structuredTriples (bal ++ cf ++ fin)).length

/-- Whether some record of the combined Long Records carries this index
triple together with a present (non-NaN) value. -/
def tripleHasValue (combined : List LongRec) (t : String × String × String) : Bool :=
  combined.any (fun r => decide (r.triple = t) && r.value.isSome)

/-! ### Concrete instances used by witnesses and counterexamples -/

/-- The spec's end-to-end slicing scenario: a balance-sheet table with two
catalog rows, one unrelated row, and two annual period columns. -/
def exBalanceTable : StmtTable :=
  { index := ["Total Assets", "Unrelated Row", "Total Liabilities Net Minority Interest"],
    cols := [ColLabel.ts ⟨⟨2024, 1, 1⟩, 0, 0, 0⟩, ColLabel.ts ⟨⟨2023, 1, 1⟩, 0, 0, 0⟩],
    cell := fun _ _ => some 1 }

/-- The slice `get_std_values` produces from `exBalanceTable`. -/
def exBalanceSlice : NormSlice :=
  { cols := ["Metrics", "2024-01-01", "2023-01-01"],
    rows := [("Total Assets", [some 1, some 1]),
             ("Total Liabilities Net Minority Interest", [some 1, some 1])] }

/-- A non-empty table none of whose rows is a balance metric. -/
def exDisjointTable : StmtTable :=
  { index := ["Unrelated Row"],
    cols := [ColLabel.ts ⟨⟨2024, 1, 1⟩, 0, 0, 0⟩],
    cell := fun _ _ => some 1 }

/-- A table carrying one timestamp period column (with a time part) and one
literal `"TTM"` column. -/
def exPeriodTable : StmtTable :=
  { index := ["Net Income"],
    cols := [ColLabel.ts ⟨⟨2024, 3, 5⟩, 10, 30, 0⟩, ColLabel.str "TTM"],
    cell := fun _ _ => some 2 }

/-- The slice `get_std_values` produces from `exPeriodTable`. -/
def exPeriodSlice : NormSlice :=
  { cols := ["Metrics", "2024-03-05", "TTM"],
    rows := [("Net Income", [some 2, some 2])] }

/-- The spec's end-to-end merge scenario: the TTM table holds only
`"Net Income"`, the periodic statement holds `"Net Income"` and `"EBIT"`. -/
def exMergeData : TickerData :=
  { financials :=
      ⟨["Net Income", "EBIT"], [ColLabel.ts ⟨⟨2024, 12, 31⟩, 0, 0, 0⟩],
       fun r _ => if r = "Net Income" then some 100 else some 70⟩,
    ttm_financials :=
      ⟨["Net Income"], [ColLabel.ts ⟨⟨2025, 6, 30⟩, 0, 0, 0⟩], fun _ _ => some 120⟩,
    balance_sheet := exBalanceTable,
    cashflow := exBalanceTable,
    ttm_cashflow := exBalanceTable,
    info := [("currentPrice", 10)] }

/-- A ticker whose TTM table holds no catalog metric at all while the
periodic statement holds `"Net Income"`. -/
def exNoTtmData : TickerData :=
  { financials :=
      ⟨["Net Income"], [ColLabel.ts ⟨⟨2024, 12, 31⟩, 0, 0, 0⟩], fun _ _ => some 100⟩,
    ttm_financials :=
      ⟨["Unrelated Row"], [ColLabel.ts ⟨⟨2025, 6, 30⟩, 0, 0, 0⟩], fun _ _ => some 120⟩,
    balance_sheet := exBalanceTable,
    cashflow := exBalanceTable,
    ttm_cashflow := exBalanceTable,
    info := [("currentPrice", 10)] }

/-- A provider that validates every ticker and serves `exBalanceSlice` as
every extraction result. -/
def exProvider : Provider :=
  { valid := fun _ => true,
    finTable := fun _ => exBalanceSlice,
    balTable := fun _ => exBalanceSlice,
    cfTable := fun _ => exBalanceSlice,
    mktTable := fun _ => exBalanceSlice }

/-- A provider for which only `"AAPL"` validates. -/
def exProviderAaplOnly : Provider :=
  { exProvider with valid := fun t => decide (t = "AAPL") }

/-- A dataset directory already holding all four `"AAPL"` files. -/
def exFullFS : FileSys :=
  (filePaths "AAPL").map (fun p => (p, exBalanceSlice))

/-- A dataset directory holding only the `"AAPL"` financials file. -/
def exPartialFS : FileSys :=
  [("dataset/AAPL_financials.csv", exBalanceSlice)]

/-- A melted balance record whose only value is absent (for instance a TTM
cell filled by the outer merge's absence marker). -/
def exBalRecs : List LongRec :=
  [⟨"TTM", "AAPL", "Apple Inc.", "Balance Sheet", "Total Assets", none⟩]

/-- A melted financial record with a present value. -/
def exFinRecs : List LongRec :=
  [⟨"2024-01-01", "AAPL", "Apple Inc.", "Financial Statement", "Net Income", some 5⟩]

/-! ### Helper lemmas -/

theorem charVal_digitChar (n : Nat) (h : n < 10) : charVal (Nat.digitChar n) = some n := by
  interval_cases n <;> rfl

theorem parseIsoDate_isoformat (d : CalDate) (h : d.Valid) :
    parseIsoDate d.isoformat = some d := by
  obtain ⟨hy, hm1, hm2, hd1, hd2⟩ := h
  unfold parseIsoDate CalDate.isoformat
  simp only []
  rw [charVal_digitChar _ (by omega), charVal_digitChar _ (by omega),
      charVal_digitChar _ (by omega), charVal_digitChar _ (by omega),
      charVal_digitChar _ (by omega), charVal_digitChar _ (by omega),
      charVal_digitChar _ (by omega), charVal_digitChar _ (by omega)]
  simp only [Option.bind_eq_bind, Option.some_bind]
  have ey : 1000 * (d.year / 1000 % 10) + 100 * (d.year / 100 % 10) +
      10 * (d.year / 10 % 10) + d.year % 10 = d.year := by omega
  have em : 10 * (d.month / 10 % 10) + d.month % 10 = d.month := by omega
  have ed : 10 * (d.day / 10 % 10) + d.day % 10 = d.day := by omega
  simp [ey, em, ed, hm1, hm2, hd1, hd2]

theorem allSome_isSome {α β : Type} (f : α → Option β) (l : List α)
    (h : ∀ x ∈ l, (f x).isSome = true) : ∃ ys, allSome f l = some ys := by
  induction l with
  | nil => exact ⟨[], rfl⟩
  | cons a as ih =>
    obtain ⟨ys, hys⟩ := ih (fun x hx => h x (List.mem_cons_of_mem _ hx))
    obtain ⟨y, hy⟩ := Option.isSome_iff_exists.mp (h a (List.mem_cons_self _ _))
    exact ⟨y :: ys, by simp [allSome, hy, hys]⟩

theorem allSome_get? {α β : Type} (f : α → Option β) (xs : List α) (ys : List β)
    (h : allSome f xs = some ys) (i : Nat) (x : α) (hx : xs.get? i = some x) :
    ys.get? i = f x := by
  induction xs generalizing ys i with
  | nil => simp at hx
  | cons a as ih =>
    cases hfa : f a with
    | none => rw [allSome, hfa] at h; simp at h
    | some b =>
      cases hrest : allSome f as with
      | none => rw [allSome, hfa, hrest] at h; simp at h
      | some bs =>
        rw [allSome, hfa, hrest] at h
        simp only [Option.bind_eq_bind, Option.some_bind] at h
        cases h
        cases i with
        | zero =>
          simp only [List.get?] at hx
          cases hx
          simpa using hfa.symm
        | succ j =>
          simp only [List.get?] at hx ⊢
          exact ih bs hrest j hx

/-! ### Claim theorems -/

/-- C1: for every statement table and metric list, when slicing succeeds the
output row-label set of `get_std_values` is exactly the intersection of the
table's row labels and the metric list: no row outside the metric list
appears, and no metric absent from the table is invented. -/
theorem get_std_values_rows_iff (df : StmtTable) (metrics : List String) (out : NormSlice)
    (h : get_std_values df metrics = some out) (r : String) :
    r ∈ out.rows.map Prod.fst ↔ r ∈ df.index ∧ r ∈ metrics := by
  cases hc : allSome stdColLabel df.cols with
  | none => rw [get_std_values, hc] at h; simp at h
  | some conv =>
    rw [get_std_values, hc] at h
    simp only [Option.pure_def, Option.bind_eq_bind, Option.some_bind, Option.some_inj] at h
    subst h
    simp [List.map_map, List.mem_filter, Function.comp]

/-- Witness for C1 at the spec's slicing scenario. -/
theorem get_std_values_rows_iff_witness :
    ("Total Assets" ∈ exBalanceSlice.rows.map Prod.fst ↔
      "Total Assets" ∈ exBalanceTable.index ∧ "Total Assets" ∈ balance_metrics) :=
  get_std_values_rows_iff exBalanceTable balance_metrics exBalanceSlice (by decide)
    "Total Assets"

/-- C10: a non-empty statement table whose row labels are disjoint from the
metric list (and whose column labels all convert) slices without error to a
table with zero rows whose first column header is `"Metrics"`. -/
theorem get_std_values_disjoint_empty (df : StmtTable) (metrics : List String)
    (_hne : df.index ≠ [])
    (hdisj : ∀ r ∈ df.index, r ∉ metrics)
    (hcols : ∀ l ∈ df.cols, (stdColLabel l).isSome = true) :
    (get_std_values df metrics).map (fun out => (out.rows, out.cols.head?)) =
      some ([], some "Metrics") := by
  obtain ⟨conv, hconv⟩ := allSome_isSome stdColLabel df.cols hcols
  have hfilter : df.index.filter (fun r => decide (r ∈ metrics)) = [] := by
    apply List.filter_eq_nil_iff.mpr
    intro r hr
    simpa using hdisj r hr
  rw [get_std_values, hconv]
  simp [hfilter]

/-- Witness for C10 at a concrete disjoint table. -/
theorem get_std_values_disjoint_empty_witness :
    (get_std_values exDisjointTable balance_metrics).map
      (fun out => (out.rows, out.cols.head?)) = some ([], some "Metrics") :=
  get_std_values_disjoint_empty exDisjointTable balance_metrics (by decide) (by decide)
    (by decide)

/-- C7: for the `i`-th input column of a successful slice, a label literally
named `"Metrics"` or `"TTM"` passes through unchanged; any other label that
converts to a (provider-representable) timestamp gets as header the
ISO-8601 string of its calendar date with the time component truncated, and
re-parsing that header yields the same calendar date. -/
theorem get_std_values_col_headers (df : StmtTable) (metrics : List String)
    (out : NormSlice) (i : Nat) (l : ColLabel) (t : PdTimestamp)
    (h : get_std_values df metrics = some out) (hl : df.cols.get? i = some l) :
    (l = ColLabel.str "Metrics" → out.cols.get? (i + 1) = some "Metrics") ∧
    (l = ColLabel.str "TTM" → out.cols.get? (i + 1) = some "TTM") ∧
    (l ≠ ColLabel.str "Metrics" → l ≠ ColLabel.str "TTM" → to_datetime l = some t →
      t.date.Valid →
      out.cols.get? (i + 1) = some t.date.isoformat ∧
      parseIsoDate t.date.isoformat = some t.date) := by
  cases hc : allSome stdColLabel df.cols with
  | none => rw [get_std_values, hc] at h; simp at h
  | some conv =>
    rw [get_std_values, hc] at h
    simp only [Option.pure_def, Option.bind_eq_bind, Option.some_bind, Option.some_inj] at h
    subst h
    have hcol : conv.get? i = stdColLabel l := allSome_get? stdColLabel df.cols conv hc i l hl
    have hout : ∀ s : String, stdColLabel l = some s →
        ("Metrics" :: conv).get? (i + 1) = some s := by
      intro s hs
      rw [List.get?_cons_succ, hcol]
      exact hs
    refine ⟨?_, ?_, ?_⟩
    · rintro rfl
      exact hout "Metrics" (by simp [stdColLabel])
    · rintro rfl
      exact hout "TTM" (by simp [stdColLabel])
    · intro hnm hnt hdt hv
      have hstd : stdColLabel l = some t.date.isoformat := by
        cases l with
        | ts u =>
          rw [to_datetime] at hdt
          cases hdt
          rfl
        | str s =>
          have hsm : s ≠ "Metrics" := fun hh => hnm (by rw [hh])
          have hst : s ≠ "TTM" := fun hh => hnt (by rw [hh])
          rw [stdColLabel, if_neg (by simp [hsm, hst]), hdt]
          rfl
      exact ⟨hout _ hstd, parseIsoDate_isoformat t.date hv⟩

/-- Witness for C7: in the slice of `exPeriodTable`, the timestamp column
(March 5 2024, 10:30:00) becomes its truncated ISO date and re-parses to the
same calendar date, and the literal `"TTM"` column passes through. -/
theorem get_std_values_col_headers_witness :
    (exPeriodSlice.cols.get? 1 = some (CalDate.isoformat ⟨2024, 3, 5⟩) ∧
      parseIsoDate (CalDate.isoformat ⟨2024, 3, 5⟩) = some ⟨2024, 3, 5⟩) ∧
    exPeriodSlice.cols.get? 2 = some "TTM" :=
  ⟨(get_std_values_col_headers exPeriodTable financial_metrics exPeriodSlice 0
      (ColLabel.ts ⟨⟨2024, 3, 5⟩, 10, 30, 0⟩) ⟨⟨2024, 3, 5⟩, 10, 30, 0⟩
      (by decide) rfl).2.2 (by decide) (by decide) rfl (by decide),
   (get_std_values_col_headers exPeriodTable financial_metrics exPeriodSlice 1
      (ColLabel.str "TTM") ⟨⟨2024, 3, 5⟩, 10, 30, 0⟩ (by decide) rfl).2.1 rfl⟩

/-- Counterexample to C2 as stated: at the spec's merge scenario (TTM table
holding only `"Net Income"`, periodic statement holding `"Net Income"` and
`"EBIT"`), the merged table has two data rows, not three. -/
theorem extract_financial_merge_cex :
    (extract_financial exMergeData).map (fun s => s.rows.length) = some 2 ∧
    exMergeData.ttm_financials.index = ["Net Income"] ∧
    exMergeData.financials.index = ["Net Income", "EBIT"] :=
  ⟨by decide, rfl, rfl⟩

/-- C2 (amended): at the spec's merge scenario the outer merge of
`extract_financial` produces two rows, ordered `EBIT` then `Net Income`
(outer-merge keys sorted lexicographically), with `EBIT`'s `"TTM"` cell
equal to the absence marker. -/
theorem extract_financial_merge_scenario :
    extract_financial exMergeData =
      some ⟨["Metrics", "TTM", "2024-12-31"],
            [("EBIT", [none, some 70]), ("Net Income", [some 120, some 100])]⟩ := by
  decide

/-- Counterexample to C3 as stated: for `exNoTtmData` no metric of the
metric list occurs in the TTM table, yet the merged table still carries a
`"TTM"` column header (`DataFrame.from_dict(..., columns=["TTM"])` creates
the column even from an empty dictionary), so "TTM appears exactly when
some metric of the metric list was present in the TTM table" is false. -/
theorem extract_financial_ttm_header_cex :
    (extract_financial exNoTtmData).map NormSlice.cols =
      some ["Metrics", "TTM", "2024-12-31"] ∧
    financial_metrics.all (fun m => !(exNoTtmData.ttm_financials.index.contains m)) = true :=
  ⟨by decide, by decide⟩

/-- C3 (amended): whenever `extract_financial` succeeds, the merged
category table's headers are `"Metrics"` first, then `"TTM"`
unconditionally, then the periodic columns in their original provider
order. -/
theorem extract_financial_cols (t : TickerData) (out : NormSlice) (ps : List String)
    (h : extract_financial t = some out)
    (hp : allSome stdColLabel t.financials.cols = some ps)
    (hnm : "Metrics" ∉ ps) :
    out.cols = "Metrics" :: "TTM" :: ps := by
  unfold extract_financial at h
  by_cases h1 : t.financials.isEmptyTable = true
  · rw [if_pos h1] at h
    cases h
  rw [if_neg h1] at h
  by_cases h2 : t.ttm_financials.isEmptyTable = true
  · rw [if_pos h2] at h
    cases h
  rw [if_neg h2] at h
  cases hh : t.ttm_financials.cols.head? with
  | none => rw [hh] at h; cases h
  | some latest =>
    rw [hh] at h
    cases hg : get_std_values t.financials financial_metrics with
    | none =>
      rw [hg] at h
      cases h
    | some std =>
      rw [hg] at h
      simp only [Option.pure_def, Option.bind_eq_bind, Option.some_bind,
        Option.some_inj] at h
      subst h
      have hcols : std.cols = "Metrics" :: ps := by
        rw [get_std_values, hp] at hg
        simp only [Option.pure_def, Option.bind_eq_bind, Option.some_bind,
          Option.some_inj] at hg
        rw [← hg]
      have hfilter : ps.filter (fun c => decide (c ≠ "Metrics")) = ps := by
        apply List.filter_eq_self.mpr
        intro c hc
        simp only [decide_eq_true_eq]
        intro hceq
        exact hnm (hceq ▸ hc)
      simp [mergeOuterOnMetrics, ttmSlice, hcols, hfilter]
      intro a ha heq
      exact hnm (heq ▸ ha)

/-- Witness for C3's amended theorem at the concrete merge scenario. -/
theorem extract_financial_cols_witness :
    (⟨["Metrics", "TTM", "2024-12-31"],
      [("EBIT", [none, some 70]), ("Net Income", [some 120, some 100])]⟩ : NormSlice).cols =
      "Metrics" :: "TTM" :: ["2024-12-31"] :=
  extract_financial_cols exMergeData
    ⟨["Metrics", "TTM", "2024-12-31"],
     [("EBIT", [none, some 70]), ("Net Income", [some 120, some 100])]⟩
    ["2024-12-31"] (by decide) (by decide) (by decide)

/-- C8: `extract_market` raises exactly when the provider's info dictionary
is empty; otherwise it returns the two-column (Metrics, Value) table with
one row per market metric, a field missing from the dictionary giving an
absence-marker cell rather than an omitted row. -/
theorem extract_market_spec (info : List (String × Int)) :
    (extract_market info = none ↔ info = []) ∧
    (info ≠ [] → extract_market info =
      some ⟨["Metrics", "Value"], market_metrics.map (fun m => (m, [infoGet info m]))⟩) := by
  constructor
  · constructor
    · intro h
      by_contra hne
      rw [extract_market, if_neg (by simpa using hne)] at h
      cases h
    · rintro rfl
      rfl
  · intro hne
    rw [extract_market, if_neg (by simpa using hne)]

/-- Witness for C8: a dictionary holding only `currentPrice` yields all
four rows, the other three with the absence marker. -/
theorem extract_market_spec_witness :
    extract_market [("currentPrice", 10)] =
      some ⟨["Metrics", "Value"],
            market_metrics.map (fun m => (m, [infoGet [("currentPrice", 10)] m]))⟩ :=
  (extract_market_spec [("currentPrice", 10)]).2 (by decide)

theorem fsRead_writeMissing_of_exists (fs : FileSys) (p q : String) (v : NormSlice)
    (h : fsHasPath fs p = true) : fsRead (writeMissing fs q v).1 p = fsRead fs p := by
  unfold writeMissing
  by_cases hq : fsHasPath fs q = true
  · rw [if_pos hq]
  · rw [if_neg hq]
    have hne : (q ≠ p) := fun hqp => hq (hqp ▸ h)
    simp [fsRead, List.find?, hne]

theorem fsHasPath_writeMissing_mono (fs : FileSys) (p q : String) (v : NormSlice)
    (h : fsHasPath fs p = true) : fsHasPath (writeMissing fs q v).1 p = true := by
  unfold fsHasPath
  rw [fsRead_writeMissing_of_exists fs p q v h]
  exact h

theorem fsHasPath_writeMissing_self (fs : FileSys) (p : String) (v : NormSlice) :
    fsHasPath (writeMissing fs p v).1 p = true := by
  unfold writeMissing
  by_cases hp : fsHasPath fs p = true
  · rw [if_pos hp]
    exact hp
  · rw [if_neg hp]
    simp [fsHasPath, fsRead, List.find?]

theorem fsHasPath_writeMissing_false (fs : FileSys) (p q : String) (v : NormSlice)
    (h : fsHasPath (writeMissing fs q v).1 p = false) : fsHasPath fs p = false := by
  by_contra hc
  rw [fsHasPath_writeMissing_mono fs p q v (Bool.not_eq_false _ ▸ hc)] at h
  cases h

theorem writeMissing_event (fs : FileSys) (p : String) (v : NormSlice) (e : RunEvent)
    (h : e ∈ (writeMissing fs p v).2) :
    e = RunEvent.fileWrite p ∧ fsHasPath fs p = false := by
  unfold writeMissing at h
  by_cases hp : fsHasPath fs p = true
  · rw [if_pos hp] at h
    cases h
  · rw [if_neg hp] at h
    simp only [List.mem_singleton] at h
    exact ⟨h, Bool.not_eq_true _ ▸ hp⟩

theorem processTicker_skip (pr : Provider) (fs : FileSys) (stock : String)
    (h : (filePaths stock).all (fun p => fsHasPath fs p) = true) :
    processTicker pr fs stock = (fs, []) := by
  rw [processTicker, if_pos h]

theorem processAll_all_exist (pr : Provider) (fs : FileSys) (ts : List String)
    (hx : ∀ t ∈ ts, ∀ p ∈ filePaths t, fsHasPath fs p = true) :
    processAll pr fs ts = (fs, []) := by
  induction ts with
  | nil => rfl
  | cons a as ih =>
    have ha : processTicker pr fs a = (fs, []) :=
      processTicker_skip pr fs a
        (List.all_eq_true.mpr (fun p hp => hx a (List.mem_cons_self _ _) p hp))
    rw [processAll, ha, ih (fun t ht p hp => hx t (List.mem_cons_of_mem _ ht) p hp)]
    rfl

theorem validatePhase_all_valid (pr : Provider) (ts : List String)
    (hv : ∀ t ∈ ts, pr.valid t = true) :
    validatePhase pr ts = (ts.map RunEvent.validationCall, true) := by
  induction ts with
  | nil => rfl
  | cons a as ih =>
    rw [validatePhase, if_pos (hv a (List.mem_cons_self _ _)),
        ih (fun t ht => hv t (List.mem_cons_of_mem _ ht))]
    rfl

theorem validatePhase_snd_false (pr : Provider) (ts : List String)
    (h : ∃ t ∈ ts, pr.valid t = false) : (validatePhase pr ts).2 = false := by
  induction ts with
  | nil => simp at h
  | cons a as ih =>
    obtain ⟨t, ht, hf⟩ := h
    by_cases ha : pr.valid a = true
    · rw [validatePhase, if_pos ha]
      apply ih
      rcases List.mem_cons.mp ht with rfl | hmem
      · rw [ha] at hf
        cases hf
      · exact ⟨t, hmem, hf⟩
    · rw [validatePhase, if_neg ha]

theorem validatePhase_events (pr : Provider) (ts : List String) :
    ∀ e ∈ (validatePhase pr ts).1, ∃ t, e = RunEvent.validationCall t := by
  induction ts with
  | nil => intro e he; cases he
  | cons a as ih =>
    intro e he
    by_cases ha : pr.valid a = true
    · rw [validatePhase, if_pos ha] at he
      rcases List.mem_cons.mp he with rfl | hmem
      · exact ⟨a, rfl⟩
      · exact ih e hmem
    · rw [validatePhase, if_neg ha] at he
      rcases List.mem_singleton.mp he with rfl
      exact ⟨a, rfl⟩

/-- C4: when every requested ticker is valid and all four of its output
files already exist, a run changes nothing on disk and its whole event
trace consists of the per-ticker validation info lookups of the admission
phase — in particular the per-ticker processing performs no provider
(extraction) call and no write, so a second run leaves every file
byte-identical. -/
theorem runMain_all_files_exist (pr : Provider) (fs : FileSys) (tickers : List String)
    (hv : ∀ t ∈ tickers, pr.valid t = true)
    (hx : ∀ t ∈ tickers, ∀ p ∈ filePaths t, fsHasPath fs p = true) :
    (runMain pr fs tickers).1 = fs ∧
    (runMain pr fs tickers).2.1 = tickers.map RunEvent.validationCall := by
  rw [runMain, validatePhase_all_valid pr tickers hv,
      processAll_all_exist pr fs tickers hx]
  simp

/-- Witness for C4: one ticker, all four files present, nothing changes and
only its validation lookup is traced. -/
theorem runMain_all_files_exist_witness :
    (runMain exProvider exFullFS ["AAPL"]).1 = exFullFS ∧
    (runMain exProvider exFullFS ["AAPL"]).2.1 = ["AAPL"].map RunEvent.validationCall :=
  runMain_all_files_exist exProvider exFullFS ["AAPL"] (by decide) (by decide)

/-- C5: for a ticker with at least one of the four files missing, all four
extractors run (all four extraction provider calls are traced), any path
that already existed keeps its exact previous content, every one of the
four paths exists afterwards, and a write is traced only for a path of the
ticker that was missing beforehand. -/
theorem processTicker_missing_files (pr : Provider) (fs : FileSys) (stock : String)
    (hmiss : ¬ ((filePaths stock).all (fun p => fsHasPath fs p) = true)) :
    (RunEvent.extractCall stock "financials" ∈ (processTicker pr fs stock).2 ∧
     RunEvent.extractCall stock "balance_sheet" ∈ (processTicker pr fs stock).2 ∧
     RunEvent.extractCall stock "cashflow" ∈ (processTicker pr fs stock).2 ∧
     RunEvent.extractCall stock "market" ∈ (processTicker pr fs stock).2) ∧
    (∀ p : String, fsHasPath fs p = true →
      fsRead (processTicker pr fs stock).1 p = fsRead fs p) ∧
    (∀ p ∈ filePaths stock, fsHasPath (processTicker pr fs stock).1 p = true) ∧
    (∀ p : String, RunEvent.fileWrite p ∈ (processTicker pr fs stock).2 →
      p ∈ filePaths stock ∧ fsHasPath fs p = false) := by
  rw [processTicker, if_neg hmiss]
  simp only []
  refine ⟨⟨?_, ?_, ?_, ?_⟩, ?_, ?_, ?_⟩
  · simp
  · simp
  · simp
  · simp
  · intro p hp
    have h1 := fsHasPath_writeMissing_mono fs p
      ("dataset/" ++ stock ++ "_financials.csv") (pr.finTable stock) hp
    have h2 := fsHasPath_writeMissing_mono _ p
      ("dataset/" ++ stock ++ "_balance_sheet.csv") (pr.balTable stock) h1
    have h3 := fsHasPath_writeMissing_mono _ p
      ("dataset/" ++ stock ++ "_cashflow.csv") (pr.cfTable stock) h2
    rw [fsRead_writeMissing_of_exists _ _ _ _ h3,
        fsRead_writeMissing_of_exists _ _ _ _ h2,
        fsRead_writeMissing_of_exists _ _ _ _ h1,
        fsRead_writeMissing_of_exists _ _ _ _ hp]
  · intro p hp
    simp only [filePaths, List.mem_cons, List.not_mem_nil, or_false] at hp
    rcases hp with rfl | rfl | rfl | rfl
    · exact fsHasPath_writeMissing_mono _ _ _ _
        (fsHasPath_writeMissing_mono _ _ _ _
          (fsHasPath_writeMissing_mono _ _ _ _
            (fsHasPath_writeMissing_self _ _ _)))
    · exact fsHasPath_writeMissing_mono _ _ _ _
        (fsHasPath_writeMissing_mono _ _ _ _
          (fsHasPath_writeMissing_self _ _ _))
    · exact fsHasPath_writeMissing_mono _ _ _ _ (fsHasPath_writeMissing_self _ _ _)
    · exact fsHasPath_writeMissing_self _ _ _
  · intro p hp
    rcases List.mem_append.mp hp with hl | hw4
    rotate_left
    · obtain ⟨he, hf⟩ := writeMissing_event _ _ _ _ hw4
      injection he with hpq
      subst hpq
      refine ⟨by simp [filePaths], ?_⟩
      exact fsHasPath_writeMissing_false _ _ _ _
        (fsHasPath_writeMissing_false _ _ _ _ (fsHasPath_writeMissing_false _ _ _ _ hf))
    rcases List.mem_append.mp hl with hl | hw3
    rotate_left
    · obtain ⟨he, hf⟩ := writeMissing_event _ _ _ _ hw3
      injection he with hpq
      subst hpq
      exact ⟨by simp [filePaths],
        fsHasPath_writeMissing_false _ _ _ _ (fsHasPath_writeMissing_false _ _ _ _ hf)⟩
    rcases List.mem_append.mp hl with hl | hw2
    rotate_left
    · obtain ⟨he, hf⟩ := writeMissing_event _ _ _ _ hw2
      injection he with hpq
      subst hpq
      exact ⟨by simp [filePaths], fsHasPath_writeMissing_false _ _ _ _ hf⟩
    rcases List.mem_append.mp hl with hfetch | hw1
    · simp at hfetch
    · obtain ⟨he, hf⟩ := writeMissing_event _ _ _ _ hw1
      injection he with hpq
      subst hpq
      exact ⟨by simp [filePaths], hf⟩

/-- Witness for C5: with only the financials file present, all four
extraction calls are traced, the financials file keeps its content, and the
market file exists afterwards. -/
theorem processTicker_missing_files_witness :
    RunEvent.extractCall "AAPL" "financials" ∈ (processTicker exProvider exPartialFS "AAPL").2 ∧
    fsRead (processTicker exProvider exPartialFS "AAPL").1 "dataset/AAPL_financials.csv" =
      fsRead exPartialFS "dataset/AAPL_financials.csv" ∧
    fsHasPath (processTicker exProvider exPartialFS "AAPL").1 "dataset/AAPL_market.csv" = true :=
  ⟨(processTicker_missing_files exProvider exPartialFS "AAPL" (by decide)).1.1,
   (processTicker_missing_files exProvider exPartialFS "AAPL" (by decide)).2.1
     "dataset/AAPL_financials.csv" (by decide),
   (processTicker_missing_files exProvider exPartialFS "AAPL" (by decide)).2.2.1
     "dataset/AAPL_market.csv" (by simp [filePaths])⟩

/-- C6: when some requested ticker fails validation the whole run aborts:
the dataset directory is unchanged (no file written for any ticker of the
batch, also the earlier, valid ones) and the event trace holds only
validation lookups. -/
theorem runMain_invalid_aborts (pr : Provider) (fs : FileSys) (tickers : List String)
    (h : ∃ t ∈ tickers, pr.valid t = false) :
    (runMain pr fs tickers).1 = fs ∧ (runMain pr fs tickers).2.2 = false ∧
    ∀ e ∈ (runMain pr fs tickers).2.1, ∃ t, e = RunEvent.validationCall t := by
  have hs := validatePhase_snd_false pr tickers h
  rw [runMain, if_neg (by simp [hs])]
  exact ⟨rfl, rfl, validatePhase_events pr tickers⟩

/-- Witness for C6: two tickers of which the second is invalid; the full
directory is untouched and the run reports failure. -/
theorem runMain_invalid_aborts_witness :
    (runMain exProviderAaplOnly exFullFS ["AAPL", "MSFT"]).1 = exFullFS ∧
    (runMain exProviderAaplOnly exFullFS ["AAPL", "MSFT"]).2.2 = false :=
  ⟨(runMain_invalid_aborts exProviderAaplOnly exFullFS ["AAPL", "MSFT"]
      ⟨"MSFT", by decide, by decide⟩).1,
   (runMain_invalid_aborts exProviderAaplOnly exFullFS ["AAPL", "MSFT"]
      ⟨"MSFT", by decide, by decide⟩).2.1⟩

theorem pivotKey_triple (r : LongRec) : r.pivotKey.triple = r.triple := rfl

theorem firstAgg_isSome_iff (c : List LongRec) (k : PivotKey) :
    (firstAgg c k).isSome = true ↔ ∃ r ∈ c, r.pivotKey = k ∧ r.value.isSome = true := by
  rw [firstAgg, List.head?_isSome, ne_eq, List.filterMap_eq_nil_iff]
  push_neg
  constructor
  · rintro ⟨r, hr, hv⟩
    rw [List.mem_filter] at hr
    exact ⟨r, hr.1, by simpa using hr.2,
      by simpa [Option.ne_none_iff_isSome] using hv⟩
  · rintro ⟨r, hr, hk, hv⟩
    exact ⟨r, List.mem_filter.mpr ⟨hr, by simpa using hk⟩,
      by simpa [Option.ne_none_iff_isSome] using hv⟩

theorem mem_structuredTriples (c : List LongRec) (t : String × String × String) :
    t ∈ structuredTriples c ↔ ∃ r ∈ c, r.triple = t ∧ r.value.isSome = true := by
  rw [structuredTriples, List.mem_dedup]
  constructor
  · intro h
    obtain ⟨kv, hkv, htr⟩ := List.mem_map.mp h
    obtain ⟨hkvmem, hsome⟩ := List.mem_filter.mp hkv
    rw [aggRows] at hkvmem
    obtain ⟨k, _, hkeq⟩ := List.mem_map.mp hkvmem
    subst hkeq
    obtain ⟨r, hr, hrk, hrv⟩ := (firstAgg_isSome_iff c k).mp (by simpa using hsome)
    refine ⟨r, hr, ?_, hrv⟩
    rw [← pivotKey_triple, hrk]
    exact htr
  · rintro ⟨r, hr, htr, hv⟩
    refine List.mem_map.mpr ⟨(r.pivotKey, firstAgg c r.pivotKey), ?_, htr⟩
    refine List.mem_filter.mpr ⟨?_, ?_⟩
    · rw [aggRows]
      exact List.mem_map.mpr
        ⟨r.pivotKey, List.mem_dedup.mpr (List.mem_map.mpr ⟨r, hr, rfl⟩), rfl⟩
    · simpa using (firstAgg_isSome_iff c r.pivotKey).mpr ⟨r, hr, rfl, hv⟩

/-- Counterexample to C9 as stated: over one balance record whose only
value is absent and one financial record with a present value, the
structured table has one row while the concatenated Long Records hold two
distinct (Year, Ticker, Company Name) triples — the all-absent triple is
dropped. -/
theorem structured_row_count_cex :
    structured_row_count exBalRecs [] exFinRecs = 1 ∧
    ((exBalRecs ++ [] ++ exFinRecs).map LongRec.triple).dedup.length = 2 :=
  ⟨by decide, by decide⟩

/-- C9 (amended): the Structurer's pivoted table contains exactly one row
per distinct (Year, Ticker, Company Name) triple that carries at least one
present value in the concatenated Long Records; triples all of whose values
are absent are dropped by `pivot_table`'s default `dropna`. -/
theorem structured_row_count_eq (bal cf fin : List LongRec) :
    structured_row_count bal cf fin =
      (((bal ++ cf ++ fin).map LongRec.triple).dedup.filter
        (fun t => tripleHasValue (bal ++ cf ++ fin) t)).length := by
  apply List.Perm.length_eq
  have hnodup : (structuredTriples (bal ++ cf ++ fin)).Nodup := List.nodup_dedup _
  apply (List.perm_ext_iff_of_nodup hnodup ((List.nodup_dedup _).filter _)).mpr
  intro t
  rw [mem_structuredTriples, List.mem_filter, List.mem_dedup]
  constructor
  · rintro ⟨r, hr, htr, hv⟩
    refine ⟨List.mem_map.mpr ⟨r, hr, htr⟩, ?_⟩
    rw [tripleHasValue, List.any_eq_true]
    exact ⟨r, hr, by simp [htr, hv]⟩
  · rintro ⟨_, hval⟩
    rw [tripleHasValue, List.any_eq_true] at hval
    obtain ⟨r, hr, hb⟩ := hval
    simp only [Bool.and_eq_true, decide_eq_true_eq] at hb
    exact ⟨r, hr, hb.1, hb.2⟩
